import Mathlib

/-!
# Verification of `mongo_parse.py`

Shallow embedding of the core of `mongo_parse.py`: the two record extractors
(`parse_cluster_info`, `parse_database_info`) and the CSV writer
(`write_to_csv`), together with theorems settling the frozen claims.

Strings are modelled as `List Char`.  The three cluster regexes and the one
database regex are simple enough that Python's `re.search` (leftmost match,
greedy quantifiers) is equivalent to a deterministic maximal-munch matcher
tried at every start position from the left; the matchers below implement
exactly that.  Python's `\s` / `str.strip()` whitespace class is modelled by
its ASCII part, which is faithful for the log inputs the program handles.
-/

/-- ASCII whitespace, the characters matched by Python's `\s` and stripped by
`str.strip()` on ASCII text. -/
def pySpace (c : Char) : Bool :=
  c == ' ' || c == '\t' || c == '\n' || c == '\r' || c == '\x0b' || c == '\x0c'

/-- Match a literal at the head of `s`; on success return the rest of `s`.
This is the deterministic core of matching the fixed leading part of each
regex at one start position. -/
def stripLit : List Char → List Char → Option (List Char)
  | [], s => some s
  | _ :: _, [] => none
  | l :: ls, c :: cs => if l = c then stripLit ls cs else none

/-- `content.strip()`: remove leading and trailing whitespace. -/
def pyStrip (s : List Char) : List Char :=
  ((s.dropWhile pySpace).reverse.dropWhile pySpace).reverse

/-- `piece.strip("'")`: remove every leading and trailing `'` character. -/
def stripQuotes (s : List Char) : List Char :=
  ((s.dropWhile (fun c => c == '\'')).reverse.dropWhile (fun c => c == '\'')).reverse

/-- `str.split(sep)` for a one-character separator: keeps empty pieces,
`[]` splits to one empty piece. -/
def splitOn (sep : Char) : List Char → List (List Char)
  | [] => [[]]
  | c :: cs =>
    if c = sep then [] :: splitOn sep cs
    else
      match splitOn sep cs with
      | [] => [[c]]
      | p :: ps => (c :: p) :: ps

/-- `sep.join(pieces)`. -/
def joinSep (sep : List Char) : List (List Char) → List Char
  | [] => []
  | [x] => x
  | x :: xs => x ++ sep ++ joinSep sep xs

/-- The literal part of `setName:\s*'([^']+)'`. -/
def litSetName : List Char := ['s', 'e', 't', 'N', 'a', 'm', 'e', ':']

/-- The literal part of `hosts:\s*\[\s*([^\]]*)\s*\]`. -/
def litHosts : List Char := ['h', 'o', 's', 't', 's', ':']

/-- The literal part of `primary:\s*'([^']+)'`. -/
def litPrimary : List Char := ['p', 'r', 'i', 'm', 'a', 'r', 'y', ':']

/-- The literal part of `\*\* DATABASE:\s*([^\s]+)`. -/
def litDatabase : List Char := ['*', '*', ' ', 'D', 'A', 'T', 'A', 'B', 'A', 'S', 'E', ':']

/-- Try `lit` + `\s*` + `'([^']+)'` at the head of `s`; return capture group 1.
Used for both the `setName` and the `primary` regex. -/
def matchQuotedAt (lit : List Char) (s : List Char) : Option (List Char) :=
  match stripLit lit s with
  | none => none
  | some s1 =>
    match s1.dropWhile pySpace with
    | [] => none
    | q :: rest =>
      if q = '\'' then
        let grp := rest.takeWhile (fun c => c != '\'')
        match rest.dropWhile (fun c => c != '\'') with
        | [] => none
        | _ :: _ => if grp.isEmpty then none else some grp
      else none

/-- Try `hosts:\s*\[\s*([^\]]*)\s*\]` at the head of `s`; return capture
group 1.  The group is greedy, so it absorbs any whitespace before `]`. -/
def matchHostsAt (s : List Char) : Option (List Char) :=
  match stripLit litHosts s with
  | none => none
  | some s1 =>
    match s1.dropWhile pySpace with
    | '[' :: rest =>
      let rest1 := rest.dropWhile pySpace
      let grp := rest1.takeWhile (fun c => c != ']')
      match rest1.dropWhile (fun c => c != ']') with
      | [] => none
      | _ :: _ => some grp
    | _ => none

/-- Try `\*\* DATABASE:\s*([^\s]+)` at the head of `s`; return capture
group 1 (a non-empty maximal run of non-whitespace characters). -/
def matchDatabaseAt (s : List Char) : Option (List Char) :=
  match stripLit litDatabase s with
  | none => none
  | some s1 =>
    let s2 := s1.dropWhile pySpace
    let grp := s2.takeWhile (fun c => !(pySpace c))
    if grp.isEmpty then none else some grp

/-- `re.search`: try the matcher at every start position from the left and
return the first success (including the empty suffix at the end). -/
def searchFirst (f : List Char → Option (List Char)) : List Char → Option (List Char)
  | [] => f []
  | c :: cs =>
    match f (c :: cs) with
    | some r => some r
    | none => searchFirst f cs

/-- `re.search(CLUSTER_REGEXES['replica_set_name'], content)`, capture group 1. -/
def searchSetName (content : List Char) : Option (List Char) :=
  searchFirst (matchQuotedAt litSetName) content

/-- `re.search(CLUSTER_REGEXES['hosts'], content)`, capture group 1. -/
def searchHosts (content : List Char) : Option (List Char) :=
  searchFirst matchHostsAt content

/-- `re.search(CLUSTER_REGEXES['primary_host'], content)`, capture group 1. -/
def searchPrimary (content : List Char) : Option (List Char) :=
  searchFirst (matchQuotedAt litPrimary) content

/-- `re.search(DATABASE_REGEXES['database_name'], line)`, capture group 1. -/
def searchDatabase (line : List Char) : Option (List Char) :=
  searchFirst matchDatabaseAt line

/-- A parsed record: field name → field value, in insertion order
(Python dicts preserve insertion order). -/
abbrev Rec := List (String × List Char)

/-- The `hosts` branch of `parse_cluster_info`:
`' | '.join(host.strip().strip("'") for host in group.split(',') if host.strip())`.
Note the filter `if host.strip()` runs on the raw piece, before the quotes
are stripped. -/
def hostsValue (g : List Char) : List Char :=
  joinSep [' ', '|', ' ']
    (((splitOn ',' g).filter (fun h => !(pyStrip h).isEmpty)).map
      (fun h => stripQuotes (pyStrip h)))

/-- The single record `parse_cluster_info` assembles: one entry per cluster
regex that matched somewhere in the content, in the registry's insertion
order (`replica_set_name`, `hosts`, `primary_host`). -/
def clusterRecord (content : List Char) : Rec :=
  (match searchSetName content with
   | some g => [("replica_set_name", pyStrip g)]
   | none => []) ++
  (match searchHosts content with
   | some g => [("hosts", hostsValue g)]
   | none => []) ++
  (match searchPrimary content with
   | some g => [("primary_host", pyStrip g)]
   | none => [])

/-- `Parser.parse_cluster_info`: the record is appended only if it is a
non-empty dict (`if record:`). -/
def parse_cluster_info (content : List Char) : List Rec :=
  if clusterRecord content = [] then [] else [clusterRecord content]

/-- The record built for one line in `parse_database_info`:
`{'line_number': str(line_num)}` followed by the single database field,
stored as `match.group(1).strip() if match else ''`. -/
def databaseRecord (n : Nat) (line : List Char) : Rec :=
  [("line_number", (toString n).data),
   ("database_name",
     match searchDatabase line with
     | some g => pyStrip g
     | none => [])]

/-- The loop of `parse_database_info` over `enumerate(lines, 1)`: a record is
kept only when `record.get('database_name')` is truthy (a non-empty string). -/
def dbLoop : Nat → List (List Char) → List Rec
  | _, [] => []
  | n, line :: rest =>
    let record := databaseRecord n line
    if ((List.lookup "database_name" record).getD []) ≠ [] then
      record :: dbLoop (n + 1) rest
    else
      dbLoop (n + 1) rest

/-- `Parser.parse_database_info`: iterate over
`enumerate(content.strip().split('\n'), 1)`. -/
def parse_database_info (content : List Char) : List Rec :=
  dbLoop 1 (splitOn '\n' (pyStrip content))

/-- Python exceptions that `write_to_csv` can raise. -/
inductive PyErr where
  | ioError
  | attributeError
deriving DecidableEq

/-- Observable outcome of one `write_to_csv` call: the rows that reached the
sink, whether the named output file's handle was closed (`none` when no file
was opened), and the exception propagated to the caller, if any. -/
structure CsvOutcome where
  rows : List (List (List Char))
  fileClosed : Option Bool
  error : Option PyErr
deriving DecidableEq

/-- Code-point lexicographic `≤` on character lists, the order Python's
`sorted` uses on strings: compare heads by code point, recurse on ties, and
a list is `≤` any list it is a prefix of. -/
def strLeAux : List Char → List Char → Bool
  | [], _ => true
  | _ :: _, [] => false
  | a :: as, b :: bs =>
    if a.toNat < b.toNat then true
    else if b.toNat < a.toNat then false
    else strLeAux as bs

/-- Code-point lexicographic `≤` on strings. -/
def strLe (s t : String) : Bool := strLeAux s.data t.data

/-- Insert into a `strLe`-sorted list, keeping it sorted. -/
def insertField (s : String) : List String → List String
  | [] => [s]
  | t :: ts => if strLe s t then s :: t :: ts else t :: insertField s ts

/-- Insertion sort by `strLe`, modelling Python's `sorted` on a set of
distinct strings (any stable sort produces the same list there). -/
def sortFields : List String → List String
  | [] => []
  | s :: ss => insertField s (sortFields ss)

/-- `sorted(set().union(*(record.keys() for record in parsed_data)))`. -/
def fieldnamesOf (parsed_data : List Rec) : List String :=
  sortFields ((parsed_data.foldl (fun acc r => acc ++ r.map Prod.fst) []).dedup)

/-- One CSV data row: `[record.get(f, '') for f in fieldnames]`
(`csv.DictWriter` with the default `restval=''`). -/
def csvRow (fieldnames : List String) (r : Rec) : List (List Char) :=
  fieldnames.map (fun f => (List.lookup f r).getD [])

/-- `Parser.write_to_csv`.  `toNamedFile` says whether `output_file` was a
path (`true`) or `None`/stdout (`false`); `writeOk` says whether the
underlying writes succeed (`false` models a write error raising `IOError`).

Control flow of the source: with no data it logs and returns; otherwise the
`try` block writes header and rows (an `IOError` is logged and re-raised),
and the `finally` block, when `output_file is not None`, evaluates
`writer._dict_to_list(None).close()`.  `DictWriter._dict_to_list` eagerly
calls `rowdict.keys()`, so with `rowdict = None` it raises
`AttributeError` — which, raised inside `finally`, replaces any in-flight
exception — and the opened file handle is never closed. -/
def write_to_csv (parsed_data : List Rec) (toNamedFile : Bool) (writeOk : Bool) :
    CsvOutcome :=
  if parsed_data = [] then
    { rows := [], fileClosed := none, error := none }
  else
    let fns := fieldnamesOf parsed_data
    let written := if writeOk then (fns.map String.data) :: parsed_data.map (csvRow fns) else []
    if toNamedFile then
      { rows := written, fileClosed := some false, error := some PyErr.attributeError }
    else
      { rows := written, fileClosed := none,
        error := if writeOk then none else some PyErr.ioError }

/-- `ParseType`: the closed set of modes accepted by `Parser.parse_file`. -/
inductive ParseType where
  | cluster
  | database
deriving DecidableEq

/-- `Parser.parse_file` restricted to its state effect: the parser instance
carries `self.parsed_data`, which the call overwrites with the fresh parse
result; the result is also returned.  (`self.config` is the fixed registry
`{'cluster': CLUSTER_REGEXES, 'database': DATABASE_REGEXES}` wired in
`main`, which the matchers above hard-code.) -/
def parse_file_state (parsed_data : List Rec) (content : List Char) (t : ParseType) :
    List Rec × List Rec :=
  match t with
  | ParseType.cluster =>
    let r := parse_cluster_info content
    (r, r)
  | ParseType.database =>
    let r := parse_database_info content
    (r, r)

/-- Spec-side definition, following the amended wording of the hosts claim:
take capture group 1, split on `,`, discard the pieces that are empty after
whitespace-trimming, then trim whitespace and strip every leading/trailing
`'` from each surviving piece, and join with `" | "`.  Stated independently
of `hostsValue` (via `filterMap`) so the two can be compared. -/
def hostsSpecAmended (g : List Char) : List Char :=
  joinSep [' ', '|', ' ']
    ((splitOn ',' g).filterMap (fun p =>
      if pyStrip p = [] then none else some (stripQuotes (pyStrip p))))

/-- One line of the amended database claim: for a 1-indexed line whose
database pattern matches with a non-empty trimmed capture group, the record
`{line_number: str(i), database_name: value}`; nothing otherwise. -/
def dbSpecLine (p : Nat × List Char) : Option Rec :=
  match searchDatabase p.2 with
  | none => none
  | some g =>
    if pyStrip g = [] then none
    else some [("line_number", (toString p.1).data), ("database_name", pyStrip g)]

/-- Spec-side definition, following the amended wording of the database
claim: strip leading and trailing whitespace from the content, split on
newline, and keep `dbSpecLine` of each 1-indexed line, in line order. -/
def dbSpecAmended (content : List Char) : List Rec :=
  (List.enumFrom 1 (splitOn '\n' (pyStrip content))).filterMap dbSpecLine

/-- Characters allowed in the names of a well-formed cluster log template:
no whitespace, quote, colon, comma or bracket characters (so the names
cannot collide with the fixed regex patterns or the template punctuation). -/
def plainChar (ch : Char) : Bool :=
  !(pySpace ch) && ch != '\'' && ch != ':' && ch != ',' && ch != '[' && ch != ']'

/-- `"setName: '"` -/
def tplA : List Char := ['s', 'e', 't', 'N', 'a', 'm', 'e', ':', ' ', '\'']

/-- `"',\n"` -/
def tplB1 : List Char := ['\'', ',', '\n']

/-- `"hosts: [ '"` -/
def tplB2 : List Char := ['h', 'o', 's', 't', 's', ':', ' ', '[', ' ', '\'']

/-- `"', '"` -/
def tplC : List Char := ['\'', ',', ' ', '\'']

/-- `"' ],\n"` -/
def tplD1 : List Char := ['\'', ' ', ']', ',', '\n']

/-- `"primary: '"` -/
def tplD2 : List Char := ['p', 'r', 'i', 'm', 'a', 'r', 'y', ':', ' ', '\'']

/-- `"'"` -/
def tplE : List Char := ['\'']

/-- The part of the cluster template after `b`. -/
def tpl4 (c : List Char) : List Char := tplD1 ++ (tplD2 ++ (c ++ tplE))

/-- The part of the cluster template after `a`. -/
def tpl3 (b c : List Char) : List Char := tplC ++ (b ++ tpl4 c)

/-- The part of the cluster template after `X`. -/
def tpl2 (a b c : List Char) : List Char := tplB1 ++ (tplB2 ++ (a ++ tpl3 b c))

/-- A well-formed cluster log snippet:
`setName: 'X',\nhosts: [ 'a', 'b' ],\nprimary: 'c'`. -/
def clusterTemplate (X a b c : List Char) : List Char :=
  tplA ++ (X ++ tpl2 a b c)

/-- Capture group 1 of the hosts pattern on the cluster template:
`'a', 'b' ` (the group is greedy up to `]`, so it keeps the trailing space). -/
def hostsGroup (a b : List Char) : List Char :=
  '\'' :: (a ++ (tplC ++ (b ++ ['\'', ' '])))

/-! ## Helper lemmas -/

lemma searchFirst_cons_of_none (f : List Char → Option (List Char)) (c : Char) (cs : List Char)
    (h : f (c :: cs) = none) : searchFirst f (c :: cs) = searchFirst f cs := by
  simp [searchFirst, h]

lemma searchFirst_cons_of_some (f : List Char → Option (List Char)) (c : Char)
    (cs r : List Char) (h : f (c :: cs) = some r) : searchFirst f (c :: cs) = some r := by
  simp [searchFirst, h]

lemma searchFirst_append_none (f : List Char → Option (List Char)) :
    ∀ (pre suf : List Char),
      (∀ n, n < pre.length → f (pre.drop n ++ suf) = none) →
      searchFirst f (pre ++ suf) = searchFirst f suf := by
  intro pre
  induction pre with
  | nil => intro suf _; rfl
  | cons c cs ih =>
    intro suf h
    have h0 : f (c :: (cs ++ suf)) = none := h 0 (Nat.succ_pos _)
    rw [List.cons_append, searchFirst_cons_of_none _ _ _ h0]
    exact ih suf fun n hn => h (n + 1) (Nat.succ_lt_succ hn)

lemma stripLit_self_append (lit rest : List Char) : stripLit lit (lit ++ rest) = some rest := by
  induction lit with
  | nil => rfl
  | cons l ls ih => simp [stripLit, ih]

lemma stripLit_colon_zone :
    ∀ (xs lit rest : List Char), '\'' ∉ lit → ':' ∈ lit → ':' ∉ xs →
      stripLit lit (xs ++ '\'' :: rest) = none := by
  intro xs
  induction xs with
  | nil =>
    intro lit rest hq hc _
    cases lit with
    | nil => simp at hc
    | cons l ls =>
      have hl : l ≠ '\'' := fun h => hq (h ▸ List.mem_cons_self l ls)
      simp [stripLit, hl]
  | cons x xs ih =>
    intro lit rest hq hc hxs
    cases lit with
    | nil => simp at hc
    | cons l ls =>
      rw [List.cons_append]
      by_cases hlx : l = x
      · subst hlx
        have hrec : stripLit ls (xs ++ '\'' :: rest) = none := by
          apply ih ls rest
          · exact fun h => hq (List.mem_cons_of_mem _ h)
          · rcases List.mem_cons.mp hc with h | h
            · exact absurd h.symm (fun e => hxs (e ▸ List.mem_cons_self l xs))
            · exact h
          · exact fun h => hxs (List.mem_cons_of_mem _ h)
        simp [stripLit, hrec]
      · simp [stripLit, hlx]

lemma matchQuotedAt_none_of_strip (lit s : List Char) (h : stripLit lit s = none) :
    matchQuotedAt lit s = none := by
  simp [matchQuotedAt, h]

lemma matchHostsAt_none_of_strip (s : List Char) (h : stripLit litHosts s = none) :
    matchHostsAt s = none := by
  simp [matchHostsAt, h]

lemma takeWhile_append_of_all (p : Char → Bool) :
    ∀ (xs : List Char), (∀ x ∈ xs, p x = true) →
      ∀ ys, (xs ++ ys).takeWhile p = xs ++ ys.takeWhile p := by
  intro xs
  induction xs with
  | nil => intro _ ys; simp
  | cons x xs ih =>
    intro h ys
    have hx := h x (List.mem_cons_self x xs)
    simp [List.takeWhile_cons, hx, ih (fun z hz => h z (List.mem_cons_of_mem _ hz)) ys]

lemma dropWhile_append_of_all (p : Char → Bool) :
    ∀ (xs : List Char), (∀ x ∈ xs, p x = true) →
      ∀ ys, (xs ++ ys).dropWhile p = ys.dropWhile p := by
  intro xs
  induction xs with
  | nil => intro _ ys; simp
  | cons x xs ih =>
    intro h ys
    have hx := h x (List.mem_cons_self x xs)
    simp [List.dropWhile_cons, hx, ih (fun z hz => h z (List.mem_cons_of_mem _ hz)) ys]

lemma dropWhile_of_all_neg (p : Char → Bool) (l : List Char)
    (h : ∀ x ∈ l, p x = false) : l.dropWhile p = l := by
  cases l with
  | nil => rfl
  | cons x xs => simp [List.dropWhile_cons, h x (List.mem_cons_self x xs)]

lemma splitOn_of_not_mem (sep : Char) :
    ∀ (zs : List Char), sep ∉ zs → splitOn sep zs = [zs] := by
  intro zs
  induction zs with
  | nil => intro _; rfl
  | cons c cs ih =>
    intro h
    have hc : c ≠ sep := fun e => h (e ▸ List.mem_cons_self c cs)
    simp [splitOn, hc, ih (fun m => h (List.mem_cons_of_mem _ m))]

lemma splitOn_append_sep (sep : Char) :
    ∀ (xs ys : List Char), sep ∉ xs →
      splitOn sep (xs ++ sep :: ys) = xs :: splitOn sep ys := by
  intro xs
  induction xs with
  | nil => intro ys _; simp [splitOn]
  | cons x xs ih =>
    intro ys h
    have hx : x ≠ sep := fun e => h (e ▸ List.mem_cons_self x xs)
    have hrec := ih ys (fun m => h (List.mem_cons_of_mem _ m))
    simp [splitOn, hx, hrec]

lemma pyStrip_of_all_nonspace (s : List Char) (h : ∀ x ∈ s, pySpace x = false) :
    pyStrip s = s := by
  unfold pyStrip
  rw [dropWhile_of_all_neg _ _ h,
    dropWhile_of_all_neg _ _ (fun x hx => h x (List.mem_reverse.mp hx)),
    List.reverse_reverse]

lemma lookup_database_name (n : Nat) (v : List Char) :
    List.lookup "database_name"
      [("line_number", (toString n).data), ("database_name", v)] = some v := by
  simp [List.lookup]

lemma strLeAux_total : ∀ u v : List Char, strLeAux u v = true ∨ strLeAux v u = true := by
  intro u
  induction u with
  | nil => intro v; left; rfl
  | cons a as ih =>
    intro v
    cases v with
    | nil => right; rfl
    | cons b bs =>
      simp only [strLeAux]
      rcases ih bs with h | h <;>
        by_cases hab : a.toNat < b.toNat <;> by_cases hba : b.toNat < a.toNat <;>
          simp [hab, hba, h]

lemma strLeAux_trans : ∀ u v w : List Char,
    strLeAux u v = true → strLeAux v w = true → strLeAux u w = true := by
  intro u
  induction u with
  | nil => intro v w _ _; rfl
  | cons a as ih =>
    intro v w h1 h2
    cases v with
    | nil => simp [strLeAux] at h1
    | cons b bs =>
      cases w with
      | nil => simp [strLeAux] at h2
      | cons c cs =>
        simp only [strLeAux] at h1 h2 ⊢
        split_ifs at h1 h2 ⊢ <;>
          first
          | rfl
          | exact ih bs cs h1 h2
          | (exfalso; omega)

lemma strLe_total (s t : String) : strLe s t = true ∨ strLe t s = true :=
  strLeAux_total s.data t.data

lemma strLe_trans {s t u : String} (h1 : strLe s t = true) (h2 : strLe t u = true) :
    strLe s u = true :=
  strLeAux_trans s.data t.data u.data h1 h2

lemma insertField_perm (s : String) : ∀ l : List String, (insertField s l).Perm (s :: l) := by
  intro l
  induction l with
  | nil => exact List.Perm.refl _
  | cons t ts ih =>
    unfold insertField
    by_cases h : strLe s t = true
    · rw [if_pos h]
    · rw [if_neg h]
      exact (List.Perm.cons t ih).trans (List.Perm.swap s t ts)

lemma sortFields_perm : ∀ l : List String, (sortFields l).Perm l := by
  intro l
  induction l with
  | nil => exact List.Perm.refl _
  | cons s ss ih =>
    exact (insertField_perm s (sortFields ss)).trans (List.Perm.cons s ih)

lemma sorted_insertField (s : String) :
    ∀ l : List String, List.Sorted (fun a b => strLe a b = true) l →
      List.Sorted (fun a b => strLe a b = true) (insertField s l) := by
  intro l
  induction l with
  | nil => intro _; simp [insertField]
  | cons t ts ih =>
    intro h
    rw [List.sorted_cons] at h
    unfold insertField
    by_cases hst : strLe s t = true
    · rw [if_pos hst, List.sorted_cons]
      refine ⟨?_, List.sorted_cons.mpr h⟩
      intro u hu
      rcases List.mem_cons.mp hu with rfl | hu
      · exact hst
      · exact strLe_trans hst (h.1 u hu)
    · rw [if_neg hst, List.sorted_cons]
      refine ⟨?_, ih h.2⟩
      intro u hu
      rcases List.mem_cons.mp ((insertField_perm s ts).mem_iff.mp hu) with he | hu
      · rw [he]
        rcases strLe_total s t with h' | h'
        · exact absurd h' hst
        · exact h'
      · exact h.1 u hu

lemma sortFields_sorted : ∀ l : List String,
    List.Sorted (fun a b => strLe a b = true) (sortFields l) := by
  intro l
  induction l with
  | nil => exact List.sorted_nil
  | cons s ss ih => exact sorted_insertField s _ ih

lemma dbLoop_all_nonempty :
    ∀ (lines : List (List Char)) (n : Nat),
      (dbLoop n lines).all
        (fun rec => !((List.lookup "database_name" rec).getD []).isEmpty) = true := by
  intro lines
  induction lines with
  | nil => intro n; rfl
  | cons line rest ih =>
    intro n
    unfold dbLoop
    by_cases h : ((List.lookup "database_name" (databaseRecord n line)).getD []) ≠ []
    · rw [if_pos h, List.all_cons, ih (n + 1), Bool.and_true]
      simp only [Bool.not_eq_true', List.isEmpty_eq_false]
      exact h
    · rw [if_neg h]
      exact ih (n + 1)

lemma dbLoop_eq_spec :
    ∀ (lines : List (List Char)) (n : Nat),
      dbLoop n lines = (List.enumFrom n lines).filterMap dbSpecLine := by
  intro lines
  induction lines with
  | nil => intro n; rfl
  | cons line rest ih =>
    intro n
    unfold dbLoop
    rw [List.enumFrom_cons, List.filterMap_cons]
    have hval : ((List.lookup "database_name" (databaseRecord n line)).getD []) =
        (match searchDatabase line with
         | some g => pyStrip g
         | none => ([] : List Char)) := by
      simp [databaseRecord, List.lookup]
    cases hs : searchDatabase line with
    | none =>
      rw [hs] at hval
      have hl : dbSpecLine (n, line) = none := by simp [dbSpecLine, hs]
      rw [hl, if_neg (fun hne => hne hval)]
      exact ih (n + 1)
    | some g =>
      rw [hs] at hval
      by_cases hg : pyStrip g = []
      · have hl : dbSpecLine (n, line) = none := by simp [dbSpecLine, hs, hg]
        rw [hl, if_neg (fun hne => hne (hval.trans hg))]
        exact ih (n + 1)
      · have hl : dbSpecLine (n, line) =
            some [("line_number", (toString n).data), ("database_name", pyStrip g)] := by
          simp [dbSpecLine, hs, hg]
        rw [hl, if_pos (fun he => hg (hval.symm.trans he))]
        rw [ih (n + 1)]
        simp [databaseRecord, hs]

lemma filterMap_strip_eq (l : List (List Char)) :
    l.filterMap (fun p =>
        if pyStrip p = [] then none else some (stripQuotes (pyStrip p))) =
      (l.filter (fun h => !(pyStrip h).isEmpty)).map (fun h => stripQuotes (pyStrip h)) := by
  induction l with
  | nil => rfl
  | cons x xs ih =>
    by_cases hx : pyStrip x = []
    · simp [List.filterMap_cons, List.filter_cons, hx, ih]
    · simp [List.filterMap_cons, List.filter_cons, hx, ih]

lemma hostsValue_eq_spec (g : List Char) : hostsValue g = hostsSpecAmended g := by
  unfold hostsValue hostsSpecAmended
  rw [filterMap_strip_eq]

/-! ## Claim theorems -/

/-- **C1, counterexample.**  The claim says `hosts: [ 'h1' , '', 'h2' ]`
yields `"h1 | h2"`.  It does not: the comprehension's filter `if host.strip()`
runs before the quotes are stripped, so the piece `''` survives the filter and
becomes an empty string in the joined value, which is `"h1 |  | h2"`. -/
theorem C1_counterexample :
    parse_cluster_info "hosts: [ 'h1' , '', 'h2' ]".data =
        [[("hosts", "h1 |  | h2".data)]] ∧
      "h1 |  | h2".data ≠ "h1 | h2".data := by
  decide

/-- **C1, amended.**  Whenever the hosts pattern matches, the produced
record's `hosts` value is: capture group 1, split on `,`, pieces that are
empty after whitespace-trimming discarded, each surviving piece trimmed and
stripped of all leading/trailing `'` characters, joined with `" | "`
(a piece that becomes empty only after quote-stripping is kept as an empty
string). -/
theorem C1_hosts_field (content g : List Char) (h : searchHosts content = some g) :
    List.lookup "hosts" ((parse_cluster_info content).headD []) =
      some (hostsSpecAmended g) := by
  unfold parse_cluster_info clusterRecord
  rw [h]
  cases h1 : searchSetName content <;> cases h2 : searchPrimary content <;>
    simp [List.lookup, hostsValue_eq_spec]

/-- **C1, witness** for `C1_hosts_field` at the claim's own example. -/
theorem C1_hosts_field_witness :
    List.lookup "hosts" ((parse_cluster_info "hosts: [ 'h1' , '', 'h2' ]".data).headD []) =
        some (hostsSpecAmended "'h1' , '', 'h2' ".data) ∧
      hostsSpecAmended "'h1' , '', 'h2' ".data = "h1 |  | h2".data :=
  ⟨C1_hosts_field _ _ (by decide), by decide⟩

/-- **C2, counterexample.**  The claim says `line_number` is the 1-based
index of the line in the original content.  But the code strips leading as
well as trailing whitespace before splitting: for `"\n** DATABASE: foo"` the
marker sits on line 2 of the original content, yet the record carries
`line_number = "1"`. -/
theorem C2_counterexample :
    parse_database_info "\n** DATABASE: foo".data =
        [[("line_number", "1".data), ("database_name", "foo".data)]] ∧
      (splitOn '\n' "\n** DATABASE: foo".data)[1]? = some "** DATABASE: foo".data ∧
      "1".data ≠ "2".data := by
  decide

/-- **C2, amended.**  `parse_database_info` strips leading *and* trailing
whitespace, splits on newline, and each kept record's `line_number` is the
1-based index of its line *within the stripped content*, with records
returned in line order — exactly the reference function `dbSpecAmended`. -/
theorem C2_stripped_line_numbers (content : List Char) :
    parse_database_info content = dbSpecAmended content := by
  unfold parse_database_info dbSpecAmended
  exact dbLoop_eq_spec _ 1

/-- **C3.**  Evaluation of `write_to_csv` at a failing input: one record,
a named output file, all underlying writes succeeding.  The claim says the
call completes without raising and closes the handle; the code instead
raises `AttributeError` from the `finally` block
(`writer._dict_to_list(None).close()`) and never closes the file handle. -/
theorem C3_code_eval :
    write_to_csv [[("database_name", "admin".data), ("line_number", "1".data)]] true true =
      ⟨[["database_name".data, "line_number".data], ["admin".data, "1".data]],
        some false, some PyErr.attributeError⟩ := by
  decide

/-- **C4.**  `parse_cluster_info` returns at most one record; it returns the
empty list exactly when none of the three cluster patterns matches; and any
returned record carries exactly the fields whose pattern matched (a field is
present iff its search succeeded, and no other keys occur). -/
theorem C4_at_most_one_record (content : List Char) :
    (parse_cluster_info content).length ≤ 1 ∧
      (parse_cluster_info content = [] ↔
        searchSetName content = none ∧ searchHosts content = none ∧
          searchPrimary content = none) ∧
      (parse_cluster_info content).all (fun rec =>
        ((List.lookup "replica_set_name" rec).isSome == (searchSetName content).isSome) &&
        ((List.lookup "hosts" rec).isSome == (searchHosts content).isSome) &&
        ((List.lookup "primary_host" rec).isSome == (searchPrimary content).isSome) &&
        rec.all (fun kv =>
          kv.1 == "replica_set_name" || kv.1 == "hosts" || kv.1 == "primary_host")) = true := by
  unfold parse_cluster_info clusterRecord
  cases h1 : searchSetName content <;> cases h2 : searchHosts content <;>
    cases h3 : searchPrimary content <;> simp [List.lookup]

/-- **C6.**  Every record returned by `parse_database_info` has a non-empty
`database_name` value: the loop keeps a record only when
`record.get('database_name')` is truthy. -/
theorem C6_nonempty_database_name (content : List Char) :
    (parse_database_info content).all
      (fun rec => !((List.lookup "database_name" rec).getD []).isEmpty) = true := by
  unfold parse_database_info
  exact dbLoop_all_nonempty _ 1

/-- **C7.**  CSV writing to the stdout sink with succeeding writes: an empty
record list emits nothing and raises nothing; a non-empty list emits one
header row — the lexicographically sorted, duplicate-free union of all field
names — followed by one row per record in input order, absent fields
rendering as the empty string (`csvRow` uses `.getD []`). -/
theorem C7_csv_shape (records : List Rec) :
    (records = [] → write_to_csv records false true = ⟨[], none, none⟩) ∧
    (records ≠ [] →
      (write_to_csv records false true).error = none ∧
      (write_to_csv records false true).rows =
        ((fieldnamesOf records).map String.data) ::
          records.map (csvRow (fieldnamesOf records)) ∧
      List.Sorted (fun a b => strLe a b = true) (fieldnamesOf records) ∧
      (fieldnamesOf records).Nodup ∧
      (fieldnamesOf records).Perm
        ((records.foldl (fun acc r => acc ++ r.map Prod.fst) []).dedup)) := by
  constructor
  · intro h; subst h; rfl
  · intro h
    refine ⟨?_, ?_, ?_, ?_, ?_⟩
    · simp [write_to_csv, h]
    · simp [write_to_csv, h]
    · exact sortFields_sorted _
    · exact (sortFields_perm _).symm.nodup (List.nodup_dedup _)
    · exact sortFields_perm _

/-- **C7, witness** for `C7_csv_shape` at two single-field records. -/
theorem C7_csv_shape_witness :
    (([[("b", "2".data)], [("a", "1".data)]] : List Rec) ≠ []) ∧
      ((write_to_csv [[("b", "2".data)], [("a", "1".data)]] false true).error = none ∧
       (write_to_csv [[("b", "2".data)], [("a", "1".data)]] false true).rows =
         ((fieldnamesOf [[("b", "2".data)], [("a", "1".data)]]).map String.data) ::
           ([[("b", "2".data)], [("a", "1".data)]] : List Rec).map
             (csvRow (fieldnamesOf [[("b", "2".data)], [("a", "1".data)]])) ∧
       List.Sorted (fun a b => strLe a b = true)
         (fieldnamesOf [[("b", "2".data)], [("a", "1".data)]]) ∧
       (fieldnamesOf [[("b", "2".data)], [("a", "1".data)]]).Nodup ∧
       (fieldnamesOf [[("b", "2".data)], [("a", "1".data)]]).Perm
         ((([[("b", "2".data)], [("a", "1".data)]] : List Rec).foldl
             (fun acc r => acc ++ r.map Prod.fst) []).dedup)) :=
  ⟨by decide, (C7_csv_shape _).2 (by decide)⟩

/-- **C8.**  Extraction is deterministic and stateless: the result of
`parse_file` does not depend on the parser instance's previously stored
`parsed_data`, and an immediate second call on the same content returns an
equal record list. -/
theorem C8_parse_stateless (st st' : List Rec) (content : List Char) (t : ParseType) :
    (parse_file_state st content t).2 = (parse_file_state st' content t).2 ∧
    (parse_file_state (parse_file_state st content t).1 content t).2 =
      (parse_file_state st content t).2 := by
  cases t <;> exact ⟨rfl, rfl⟩

/-- **C9.**  If the hosts pattern matches with an empty capture group (as in
`hosts: []`), the `hosts` field is stored as a present-but-empty value and
the match alone suffices for a record to be produced. -/
theorem C9_empty_group_present (content : List Char) (h : searchHosts content = some []) :
    (parse_cluster_info content).length = 1 ∧
      List.lookup "hosts" ((parse_cluster_info content).headD []) = some [] := by
  have hv : hostsValue [] = [] := rfl
  unfold parse_cluster_info clusterRecord
  rw [h]
  cases h1 : searchSetName content <;> cases h2 : searchPrimary content <;>
    simp [List.lookup, hv]

/-- **C9, witness** for `C9_empty_group_present` at `hosts: []`. -/
theorem C9_empty_group_present_witness :
    searchHosts "hosts: []".data = some [] ∧
      ((parse_cluster_info "hosts: []".data).length = 1 ∧
        List.lookup "hosts" ((parse_cluster_info "hosts: []".data).headD []) = some []) :=
  ⟨by decide, C9_empty_group_present _ (by decide)⟩

/-- **C10.**  Empty or all-whitespace content yields no database records:
the stripped content is empty, its newline-split is a single empty line, the
pattern cannot match there, and the record is filtered out. -/
theorem C10_whitespace_empty (content : List Char)
    (h : ∀ ch ∈ content, pySpace ch = true) :
    parse_database_info content = [] := by
  have h1 : pyStrip content = [] := by
    unfold pyStrip
    rw [List.dropWhile_eq_nil_iff.mpr h]
    rfl
  unfold parse_database_info
  rw [h1]
  decide

/-- **C10, witness** for `C10_whitespace_empty` at whitespace-only content. -/
theorem C10_whitespace_empty_witness :
    (∀ ch ∈ ("  \n\t ".data : List Char), pySpace ch = true) ∧
      parse_database_info "  \n\t ".data = [] :=
  ⟨by decide, C10_whitespace_empty _ (by decide)⟩

/-! ## Lemmas for the cluster template (claim C5) -/

lemma plainChar_spec {ch : Char} (h : plainChar ch = true) :
    pySpace ch = false ∧ ch ≠ '\'' ∧ ch ≠ ':' ∧ ch ≠ ',' ∧ ch ≠ '[' ∧ ch ≠ ']' := by
  simp [plainChar] at h
  exact ⟨h.1.1.1.1.1, h.1.1.1.1.2, h.1.1.1.2, h.1.1.2, h.1.2, h.2⟩

lemma stripLit_none_head_ne (l1 : Char) (ls : List Char) (c : Char) (cs : List Char)
    (h : l1 ≠ c) : stripLit (l1 :: ls) (c :: cs) = none := by
  simp [stripLit, h]

lemma chunk_skip_none (f : List Char → Option (List Char)) (l1 : Char) (ls : List Char)
    (hf : ∀ s, stripLit (l1 :: ls) s = none → f s = none)
    (chunk : List Char) (hch : ∀ ch ∈ chunk, ch ≠ l1) (suf : List Char) :
    searchFirst f (chunk ++ suf) = searchFirst f suf := by
  apply searchFirst_append_none
  intro n hn
  rw [← List.getElem_cons_drop chunk n hn, List.cons_append]
  exact hf _ (stripLit_none_head_ne l1 ls _ _
    (fun e => (hch _ (List.getElem_mem hn)) e.symm))

lemma zone_skip_none (f : List Char → Option (List Char)) (lit : List Char)
    (hf : ∀ s, stripLit lit s = none → f s = none)
    (hq : '\'' ∉ lit) (hc : ':' ∈ lit)
    (zs : List Char) (hz : ∀ ch ∈ zs, ch ≠ ':') (suf : List Char) :
    searchFirst f (zs ++ '\'' :: suf) = searchFirst f ('\'' :: suf) := by
  apply searchFirst_append_none
  intro n hn
  exact hf _ (stripLit_colon_zone (zs.drop n) lit suf hq hc
    (fun hmem => hz _ (List.drop_subset n zs hmem) rfl))

lemma matchQuotedAt_exact (lit g rest : List Char) (hg : g ≠ [])
    (hgq : ∀ ch ∈ g, (ch != '\'') = true) :
    matchQuotedAt lit (lit ++ (' ' :: '\'' :: (g ++ ('\'' :: rest)))) = some g := by
  have ht : (g ++ ('\'' :: rest)).takeWhile (fun c => c != '\'') = g := by
    rw [takeWhile_append_of_all _ g hgq]
    simp
  have hd : (g ++ ('\'' :: rest)).dropWhile (fun c => c != '\'') = '\'' :: rest := by
    rw [dropWhile_append_of_all _ g hgq]
    simp
  unfold matchQuotedAt
  rw [stripLit_self_append]
  simp [pySpace, ht, hd, hg]

lemma searchSetName_template (X a b c : List Char) (hX : X ≠ [])
    (hXq : ∀ ch ∈ X, (ch != '\'') = true) :
    searchSetName (clusterTemplate X a b c) = some X := by
  have hm : matchQuotedAt litSetName (clusterTemplate X a b c) = some X := by
    have e : clusterTemplate X a b c =
        litSetName ++ (' ' :: '\'' ::
          (X ++ ('\'' :: (',' :: '\n' :: (tplB2 ++ (a ++ tpl3 b c)))))) := rfl
    rw [e]
    exact matchQuotedAt_exact litSetName X _ hX hXq
  unfold searchSetName
  exact searchFirst_cons_of_some _ 's'
    ('e' :: 't' :: 'N' :: 'a' :: 'm' :: 'e' :: ':' :: ' ' :: '\'' :: (X ++ tpl2 a b c))
    X hm

lemma matchHostsAt_exact (a b c : List Char)
    (hap : ∀ ch ∈ a, plainChar ch = true) (hbp : ∀ ch ∈ b, plainChar ch = true) :
    matchHostsAt (tplB2 ++ (a ++ tpl3 b c)) = some (hostsGroup a b) := by
  have hta : ∀ ch ∈ a, (ch != ']') = true := fun ch hch => by
    simpa using (plainChar_spec (hap ch hch)).2.2.2.2.2
  have htb : ∀ ch ∈ b, (ch != ']') = true := fun ch hch => by
    simpa using (plainChar_spec (hbp ch hch)).2.2.2.2.2
  have htpl : (tpl3 b c).takeWhile (fun c0 => c0 != ']') = tplC ++ (b ++ ['\'', ' ']) := by
    unfold tpl3
    rw [takeWhile_append_of_all _ tplC (by decide), takeWhile_append_of_all _ b htb]
    rfl
  have hdpl : (tpl3 b c).dropWhile (fun c0 => c0 != ']') =
      ']' :: (',' :: '\n' :: (tplD2 ++ (c ++ tplE))) := by
    unfold tpl3
    rw [dropWhile_append_of_all _ tplC (by decide), dropWhile_append_of_all _ b htb]
    rfl
  have hgrp : (('\'' : Char) :: (a ++ tpl3 b c)).takeWhile (fun c0 => c0 != ']') =
      hostsGroup a b := by
    rw [List.takeWhile_cons_of_pos (by decide), takeWhile_append_of_all _ a hta, htpl]
    rfl
  have hdrp : (('\'' : Char) :: (a ++ tpl3 b c)).dropWhile (fun c0 => c0 != ']') =
      ']' :: (',' :: '\n' :: (tplD2 ++ (c ++ tplE))) := by
    rw [List.dropWhile_cons_of_pos (by decide), dropWhile_append_of_all _ a hta, hdpl]
  have e : tplB2 ++ (a ++ tpl3 b c) =
      litHosts ++ (' ' :: '[' :: ' ' :: '\'' :: (a ++ tpl3 b c)) := rfl
  rw [e]
  unfold matchHostsAt
  rw [stripLit_self_append]
  simp [pySpace, hgrp, hdrp]

lemma searchHosts_template (X a b c : List Char)
    (hXp : ∀ ch ∈ X, plainChar ch = true)
    (hap : ∀ ch ∈ a, plainChar ch = true)
    (hbp : ∀ ch ∈ b, plainChar ch = true) :
    searchHosts (clusterTemplate X a b c) = some (hostsGroup a b) := by
  unfold searchHosts clusterTemplate
  rw [chunk_skip_none matchHostsAt 'h' ['o', 's', 't', 's', ':']
    (fun s h => matchHostsAt_none_of_strip s h) tplA (by decide) _]
  rw [show tpl2 a b c = '\'' :: (',' :: '\n' :: (tplB2 ++ (a ++ tpl3 b c))) from rfl]
  rw [zone_skip_none matchHostsAt litHosts (fun s h => matchHostsAt_none_of_strip s h)
    (by decide) (by decide) X (fun ch hch => (plainChar_spec (hXp ch hch)).2.2.1) _]
  rw [searchFirst_cons_of_none matchHostsAt '\''
    (',' :: '\n' :: (tplB2 ++ (a ++ tpl3 b c))) rfl]
  rw [searchFirst_cons_of_none matchHostsAt ','
    ('\n' :: (tplB2 ++ (a ++ tpl3 b c))) rfl]
  rw [searchFirst_cons_of_none matchHostsAt '\n' (tplB2 ++ (a ++ tpl3 b c)) rfl]
  apply searchFirst_cons_of_some
  exact matchHostsAt_exact a b c hap hbp

lemma searchPrimary_template (X a b c : List Char)
    (hXp : ∀ ch ∈ X, plainChar ch = true)
    (hap : ∀ ch ∈ a, plainChar ch = true)
    (hbp : ∀ ch ∈ b, plainChar ch = true)
    (hc : c ≠ []) (hcp : ∀ ch ∈ c, plainChar ch = true) :
    searchPrimary (clusterTemplate X a b c) = some c := by
  have hf : ∀ s, stripLit litPrimary s = none → matchQuotedAt litPrimary s = none :=
    fun s h => matchQuotedAt_none_of_strip litPrimary s h
  unfold searchPrimary clusterTemplate
  rw [chunk_skip_none (matchQuotedAt litPrimary) 'p' ['r', 'i', 'm', 'a', 'r', 'y', ':']
    hf tplA (by decide) _]
  rw [show tpl2 a b c = '\'' :: (',' :: '\n' :: (tplB2 ++ (a ++ tpl3 b c))) from rfl]
  rw [zone_skip_none (matchQuotedAt litPrimary) litPrimary hf (by decide) (by decide)
    X (fun ch hch => (plainChar_spec (hXp ch hch)).2.2.1) _]
  rw [searchFirst_cons_of_none (matchQuotedAt litPrimary) '\''
    (',' :: '\n' :: (tplB2 ++ (a ++ tpl3 b c))) rfl]
  rw [searchFirst_cons_of_none (matchQuotedAt litPrimary) ','
    ('\n' :: (tplB2 ++ (a ++ tpl3 b c))) rfl]
  rw [searchFirst_cons_of_none (matchQuotedAt litPrimary) '\n'
    (tplB2 ++ (a ++ tpl3 b c)) rfl]
  rw [chunk_skip_none (matchQuotedAt litPrimary) 'p' ['r', 'i', 'm', 'a', 'r', 'y', ':']
    hf tplB2 (by decide) _]
  rw [show tpl3 b c = '\'' :: (',' :: ' ' :: '\'' :: (b ++ tpl4 c)) from rfl]
  rw [zone_skip_none (matchQuotedAt litPrimary) litPrimary hf (by decide) (by decide)
    a (fun ch hch => (plainChar_spec (hap ch hch)).2.2.1) _]
  rw [searchFirst_cons_of_none (matchQuotedAt litPrimary) '\''
    (',' :: ' ' :: '\'' :: (b ++ tpl4 c)) rfl]
  rw [searchFirst_cons_of_none (matchQuotedAt litPrimary) ','
    (' ' :: '\'' :: (b ++ tpl4 c)) rfl]
  rw [searchFirst_cons_of_none (matchQuotedAt litPrimary) ' '
    ('\'' :: (b ++ tpl4 c)) rfl]
  rw [show tpl4 c = '\'' :: (' ' :: ']' :: ',' :: '\n' :: (tplD2 ++ (c ++ tplE))) from rfl]
  rw [searchFirst_cons_of_none (matchQuotedAt litPrimary) '\''
    (b ++ ('\'' :: ' ' :: ']' :: ',' :: '\n' :: (tplD2 ++ (c ++ tplE)))) rfl]
  rw [zone_skip_none (matchQuotedAt litPrimary) litPrimary hf (by decide) (by decide)
    b (fun ch hch => (plainChar_spec (hbp ch hch)).2.2.1) _]
  rw [searchFirst_cons_of_none (matchQuotedAt litPrimary) '\''
    (' ' :: ']' :: ',' :: '\n' :: (tplD2 ++ (c ++ tplE))) rfl]
  rw [searchFirst_cons_of_none (matchQuotedAt litPrimary) ' '
    (']' :: ',' :: '\n' :: (tplD2 ++ (c ++ tplE))) rfl]
  rw [searchFirst_cons_of_none (matchQuotedAt litPrimary) ']'
    (',' :: '\n' :: (tplD2 ++ (c ++ tplE))) rfl]
  rw [searchFirst_cons_of_none (matchQuotedAt litPrimary) ','
    ('\n' :: (tplD2 ++ (c ++ tplE))) rfl]
  rw [searchFirst_cons_of_none (matchQuotedAt litPrimary) '\n'
    (tplD2 ++ (c ++ tplE)) rfl]
  apply searchFirst_cons_of_some
  exact matchQuotedAt_exact litPrimary c []
    hc (fun ch hch => by simpa using (plainChar_spec (hcp ch hch)).2.1)

lemma pyStrip_quote_wrap (mid : List Char) :
    pyStrip ('\'' :: (mid ++ ['\''])) = '\'' :: (mid ++ ['\'']) := by
  unfold pyStrip
  rw [List.dropWhile_cons_of_neg (by decide)]
  rw [show (('\'' : Char) :: (mid ++ ['\''])).reverse = '\'' :: (mid.reverse ++ ['\'']) from
    by simp]
  rw [List.dropWhile_cons_of_neg (by decide)]
  simp

lemma pyStrip_space_quote (mid : List Char) :
    pyStrip (' ' :: ('\'' :: (mid ++ ['\'', ' ']))) = '\'' :: (mid ++ ['\'']) := by
  unfold pyStrip
  rw [List.dropWhile_cons_of_pos (by decide), List.dropWhile_cons_of_neg (by decide)]
  rw [show (('\'' : Char) :: (mid ++ ['\'', ' '])).reverse =
      ' ' :: ('\'' :: (mid.reverse ++ ['\''])) from by simp]
  rw [List.dropWhile_cons_of_pos (by decide), List.dropWhile_cons_of_neg (by decide)]
  simp

lemma dropWhile_cons_neg (p : Char → Bool) (x : Char) (xs : List Char) (h : p x = false) :
    (x :: xs).dropWhile p = x :: xs := by
  simp [List.dropWhile_cons, h]

lemma stripQuotes_wrap (mid : List Char) (hm : mid ≠ [])
    (h : ∀ ch ∈ mid, ch ≠ '\'') :
    stripQuotes ('\'' :: (mid ++ ['\''])) = mid := by
  unfold stripQuotes
  rw [show (('\'' : Char) :: (mid ++ ['\''])).dropWhile (fun c => c == '\'') =
      (mid ++ ['\'']).dropWhile (fun c => c == '\'') from rfl]
  cases mid with
  | nil => exact absurd rfl hm
  | cons m ms =>
    have hm1 : ((fun c => c == '\'') m) = false := by
      simp [h m (List.mem_cons_self m ms)]
    rw [List.cons_append, dropWhile_cons_neg _ m (ms ++ ['\'']) hm1]
    rw [show (m :: (ms ++ ['\''])).reverse = '\'' :: (ms.reverse ++ [m]) from by simp]
    rw [show (('\'' : Char) :: (ms.reverse ++ [m])).dropWhile (fun c => c == '\'') =
        (ms.reverse ++ [m]).dropWhile (fun c => c == '\'') from rfl]
    have hall : ∀ x ∈ ms.reverse ++ [m], (fun c => c == '\'') x = false := by
      intro x hx
      rcases List.mem_append.mp hx with hx | hx
      · simp [h x (List.mem_cons_of_mem _ (List.mem_reverse.mp hx))]
      · rcases List.mem_singleton.mp hx with rfl
        simp [h x (List.mem_cons_self x ms)]
    rw [dropWhile_of_all_neg _ _ hall]
    simp

lemma hostsValue_hostsGroup (a b : List Char) (ha : a ≠ []) (hb : b ≠ [])
    (hap : ∀ ch ∈ a, plainChar ch = true) (hbp : ∀ ch ∈ b, plainChar ch = true) :
    hostsValue (hostsGroup a b) = a ++ (' ' :: '|' :: ' ' :: b) := by
  have haq : ∀ ch ∈ a, ch ≠ '\'' := fun ch hch => (plainChar_spec (hap ch hch)).2.1
  have hbq : ∀ ch ∈ b, ch ≠ '\'' := fun ch hch => (plainChar_spec (hbp ch hch)).2.1
  have hacomma : (',' : Char) ∉ ('\'' :: (a ++ ['\''])) := by
    intro hmem
    rcases List.mem_cons.mp hmem with he | hmem
    · exact absurd he.symm (by decide)
    · rcases List.mem_append.mp hmem with hmem | hmem
      · exact (plainChar_spec (hap _ hmem)).2.2.2.1 rfl
      · exact absurd (List.mem_singleton.mp hmem).symm (by decide)
  have hbcomma : (',' : Char) ∉ (' ' :: ('\'' :: (b ++ ['\'', ' ']))) := by
    intro hmem
    rcases List.mem_cons.mp hmem with he | hmem
    · exact absurd he.symm (by decide)
    · rcases List.mem_cons.mp hmem with he | hmem
      · exact absurd he.symm (by decide)
      · rcases List.mem_append.mp hmem with hmem | hmem
        · exact (plainChar_spec (hbp _ hmem)).2.2.2.1 rfl
        · rcases List.mem_cons.mp hmem with he | hmem
          · exact absurd he.symm (by decide)
          · exact absurd (List.mem_singleton.mp hmem).symm (by decide)
  have e : hostsGroup a b =
      ('\'' :: (a ++ ['\''])) ++ (',' :: (' ' :: ('\'' :: (b ++ ['\'', ' '])))) := by
    unfold hostsGroup tplC
    simp
  have hs1 : pyStrip ('\'' :: (a ++ ['\''])) = '\'' :: (a ++ ['\'']) := pyStrip_quote_wrap a
  have hs2 : pyStrip (' ' :: ('\'' :: (b ++ ['\'', ' ']))) = '\'' :: (b ++ ['\'']) :=
    pyStrip_space_quote b
  have hq1 : stripQuotes ('\'' :: (a ++ ['\''])) = a := stripQuotes_wrap a ha haq
  have hq2 : stripQuotes ('\'' :: (b ++ ['\''])) = b := stripQuotes_wrap b hb hbq
  unfold hostsValue
  rw [e, splitOn_append_sep ',' _ _ hacomma, splitOn_of_not_mem ',' _ hbcomma]
  simp [List.filter_cons, hs1, hs2, hq1, hq2, joinSep]

/-- **C5, counterexample.**  The claim quantifies over non-empty quote-free
names, but quote-freeness is not enough: with the replica-set name
`xprimary:` (non-empty and quote-free) the content contains an earlier
occurrence of the substring `primary:` followed (after the set name's
closing quote) by quoted text, and `re.search` takes that leftmost match, so
`primary_host` becomes `",\nhosts: ["` instead of `"c"`. -/
theorem C5_counterexample :
    parse_cluster_info (clusterTemplate "xprimary:".data "a".data "b".data "c".data) =
        [[("replica_set_name", "xprimary:".data), ("hosts", "a | b".data),
          ("primary_host", ",\nhosts: [".data)]] ∧
      ",\nhosts: [".data ≠ "c".data := by
  decide

/-- **C5, amended.**  For the well-formed cluster log snippet
`setName: 'X',\nhosts: [ 'a', 'b' ],\nprimary: 'c'` where `X`, `a`, `b`, `c`
are non-empty strings of plain characters (no whitespace, quote, colon,
comma or bracket characters, so the names cannot collide with the fixed
patterns), `parse_cluster_info` returns exactly one record
`{replica_set_name: X, hosts: a ++ " | " ++ b, primary_host: c}`. -/
theorem C5_cluster_template (X a b c : List Char)
    (hX : X ≠ []) (hXp : ∀ ch ∈ X, plainChar ch = true)
    (ha : a ≠ []) (hap : ∀ ch ∈ a, plainChar ch = true)
    (hb : b ≠ []) (hbp : ∀ ch ∈ b, plainChar ch = true)
    (hc : c ≠ []) (hcp : ∀ ch ∈ c, plainChar ch = true) :
    parse_cluster_info (clusterTemplate X a b c) =
      [[("replica_set_name", X), ("hosts", a ++ (' ' :: '|' :: ' ' :: b)),
        ("primary_host", c)]] := by
  have h1 := searchSetName_template X a b c hX
    (fun ch hch => by simpa using (plainChar_spec (hXp ch hch)).2.1)
  have h2 := searchHosts_template X a b c hXp hap hbp
  have h3 := searchPrimary_template X a b c hXp hap hbp hc hcp
  unfold parse_cluster_info clusterRecord
  rw [h1, h2, h3]
  simp [pyStrip_of_all_nonspace X (fun ch hch => (plainChar_spec (hXp ch hch)).1),
    pyStrip_of_all_nonspace c (fun ch hch => (plainChar_spec (hcp ch hch)).1),
    hostsValue_hostsGroup a b ha hb hap hbp]

/-- **C5, witness** for `C5_cluster_template` at `rs0`, `h1`, `h2`, `h3`. -/
theorem C5_cluster_template_witness :
    parse_cluster_info (clusterTemplate "rs0".data "h1".data "h2".data "h3".data) =
      [[("replica_set_name", "rs0".data), ("hosts", "h1 | h2".data),
        ("primary_host", "h3".data)]] := by
  have h := C5_cluster_template "rs0".data "h1".data "h2".data "h3".data
    (by decide) (by decide) (by decide) (by decide)
    (by decide) (by decide) (by decide) (by decide)
  exact h.trans (by decide)
